import Mathlib

/-!
# Verification of the wallet-api ledger core

Shallow embedding of the wallet-api service's ledger consistency engine:
the planned-payment execution state machine (`src/routes/planned.ts`),
the direct transaction write path (`src/routes/transactions.ts`),
the import/export reconciliation loop (`src/routes/export.ts`),
the pay-period summary aggregator (`src/routes/summary.ts`) and the
saving-entry/goal linking handler (`src/routes/goals.ts`).

Modelling conventions:
* The MySQL store is a record of typed row lists (`DB`), one per table,
  plus the auto-increment counter for the transactions table.
* Each `db.query` call of the source is one atomic step; a handler is a
  Lean function threading the `DB` value through those steps in source
  order and returning `Except`-style results mirroring the handler's
  HTTP error responses.
* Dates (`YYYY-MM-DD` strings compared lexicographically in SQL) are
  modelled as `Nat` day numbers; lexicographic order on well-formed date
  strings coincides with the numeric order, and "+ 14 days" becomes `+ 14`.
* Monetary amounts are `Int` (cents), ids are `Nat`.
* JavaScript `a || b` on validated positive ids corresponds to `Option`
  alternation; on strings the empty string is falsy and is modelled
  explicitly where the source can receive one.
-/

/-- Transaction type enum of the source's `transactionTypeEnum`
(also the category-kind enum, which has the same four values). -/
inductive TxnType where
  | income
  | expense
  | transfer
  | adjustment
deriving DecidableEq

/-- Account type enum of `accounts.type`. -/
inductive AccountType where
  | cash
  | bank
  | credit
  | savings
deriving DecidableEq

/-- Planned payment status enum (`statusEnum` in `planned.ts`). -/
inductive PPStatus where
  | planned
  | executed
  | canceled
deriving DecidableEq

/-- A row of the `accounts` table. -/
structure Account where
  id : Nat
  user_id : Nat
  name : String
  type : AccountType
  currency : String
  is_active : Bool
  created_at : Nat := 0
deriving DecidableEq

/-- A row of the `categories` table; `user_id = none` means a global category. -/
structure Category where
  id : Nat
  user_id : Option Nat
  name : String
  kind : TxnType
deriving DecidableEq

/-- A row of the `pay_periods` table. -/
structure PayPeriod where
  id : Nat
  user_id : Nat
  pay_date : Nat
  gross_income_cents : Int
  note : Option String := none
  created_at : Nat := 0
deriving DecidableEq

/-- A row of the `transactions` table. -/
structure Txn where
  id : Nat
  user_id : Nat
  pay_period_id : Option Nat
  account_id : Nat
  category_id : Option Nat
  type : TxnType
  amount_cents : Int
  description : Option String
  txn_date : Nat
  planned_payment_id : Option Nat
  counterparty_user_id : Option Nat
  created_at : Nat := 0
deriving DecidableEq

/-- A row of the `planned_payments` table. -/
structure PlannedPayment where
  id : Nat
  user_id : Nat
  account_id : Option Nat
  description : String
  amount_cents : Int
  due_date : Nat
  auto_debit : Bool
  status : PPStatus
  linked_txn_id : Option Nat
  created_at : Nat := 0
deriving DecidableEq

/-- A row of the `saving_entries` table. -/
structure SavingEntry where
  id : Nat
  user_id : Nat
  pay_period_id : Option Nat
  account_id : Nat
  amount_cents : Int
  entry_date : Nat
  note : Option String := none
  created_at : Nat := 0
deriving DecidableEq

/-- A row of the `saving_goals` table. -/
structure SavingGoal where
  id : Nat
  user_id : Nat
  name : String
  target_amount_cents : Int
  target_date : Nat
  created_at : Nat := 0
deriving DecidableEq

/-- The relational store: one list of rows per table (in insertion order),
`users` reduced to the id column (the only one the ledger core reads),
`saving_entry_goals` as (saving_entry_id, goal_id) pairs, and the
auto-increment counter that yields `insertId` for the transactions table. -/
structure DB where
  users : List Nat
  accounts : List Account
  categories : List Category
  pay_periods : List PayPeriod
  transactions : List Txn
  planned_payments : List PlannedPayment
  saving_entries : List SavingEntry
  saving_goals : List SavingGoal
  saving_entry_goals : List (Nat × Nat)
  nextTxnId : Nat
deriving DecidableEq

/-! ## Planned payment execution (`PATCH /api/planned/:id/execute`) -/

/-- The validated body of an execute request (`executePlannedPaymentSchema`). -/
structure ExecInput where
  txn_date : Nat
  account_id : Option Nat
  category_id : Option Nat
  description : Option String
deriving DecidableEq

/-- Error outcomes of the execute handler, one per early-return response. -/
inductive ExecErr where
  | notFound
  | invalidState (st : PPStatus)
  | missingAccount
  | accountNotFound
  | categoryNotFound
deriving DecidableEq

/-- The values the execute handler holds after its read-only queries:
the planned payment row it fetched and the account id it resolved. -/
structure ExecPlan where
  pp : PlannedPayment
  accountId : Nat
deriving DecidableEq

/-- The read-only prefix of the execute handler, in source order:
`SELECT ... FROM planned_payments WHERE id = ?` (404 when empty),
the status guard (400 when not `planned`),
`validatedData.account_id || plannedPayment.account_id` (400 when null),
`SELECT id FROM accounts WHERE id = ? AND user_id = ?` (404 when empty),
and, when a category override is present,
`SELECT id FROM categories WHERE id = ?` (404 when empty). -/
def execChecks (db : DB) (plannedId : Nat) (inp : ExecInput) :
    Except ExecErr ExecPlan :=
  match db.planned_payments.find? (fun p => decide (p.id = plannedId)) with
  | none => .error .notFound
  | some pp =>
    if pp.status = .planned then
      match (match inp.account_id with
             | some a => some a
             | none => pp.account_id) with
      | none => .error .missingAccount
      | some accountId =>
        if db.accounts.any (fun a => decide (a.id = accountId ∧ a.user_id = pp.user_id)) then
          match inp.category_id with
          | some c =>
            if db.categories.any (fun cat => decide (cat.id = c)) then
              .ok ⟨pp, accountId⟩
            else .error .categoryNotFound
          | none => .ok ⟨pp, accountId⟩
        else .error .accountNotFound
    else .error (.invalidState pp.status)

/-- The write suffix of the execute handler: the transaction `INSERT`
(type `expense`, amount `-Math.abs(plannedPayment.amount_cents)`,
description `validatedData.description || plannedPayment.description`,
no pay period) followed by the separate planned-payment `UPDATE`
setting `status = 'executed'` and `linked_txn_id`. Each of the two
statements is atomic on its own; nothing groups them together. -/
def execWrites (db : DB) (plannedId : Nat) (plan : ExecPlan) (inp : ExecInput) :
    Nat × DB :=
  let txnId := db.nextTxnId
  let t : Txn :=
    { id := txnId
      user_id := plan.pp.user_id
      pay_period_id := none
      account_id := plan.accountId
      category_id := inp.category_id
      type := .expense
      amount_cents := -((plan.pp.amount_cents.natAbs : Int))
      description := some (match inp.description with
                           | some d => if d = "" then plan.pp.description else d
                           | none => plan.pp.description)
      txn_date := inp.txn_date
      planned_payment_id := some plannedId
      counterparty_user_id := none }
  let db1 := { db with transactions := db.transactions ++ [t],
                       nextTxnId := db.nextTxnId + 1 }
  let db2 := { db1 with planned_payments :=
                 db1.planned_payments.map fun p =>
                   if p.id = plannedId then
                     { p with status := .executed, linked_txn_id := some txnId }
                   else p }
  (txnId, db2)

/-- The whole execute handler: read-only checks, then the two writes.
Returns the handler's JSON result (`txn_id` on success) with the store
it leaves behind. -/
def executePlanned (db : DB) (plannedId : Nat) (inp : ExecInput) :
    Except ExecErr Nat × DB :=
  match execChecks db plannedId inp with
  | .error e => (.error e, db)
  | .ok plan =>
    let (txnId, db2) := execWrites db plannedId plan inp
    (.ok txnId, db2)

/-! ## Planned payment cancellation (`PATCH /api/planned/:id/cancel`) -/

/-- Error outcomes of the cancel handler. -/
inductive CancelErr where
  | notFound
  | invalidState (st : PPStatus)
deriving DecidableEq

/-- The cancel handler: `SELECT id, status FROM planned_payments WHERE id = ?`
(404 when empty), the status guard (400 when not `planned`), then
`UPDATE planned_payments SET status = 'canceled' WHERE id = ?`. -/
def cancelPlanned (db : DB) (plannedId : Nat) : Except CancelErr Unit × DB :=
  match db.planned_payments.find? (fun p => decide (p.id = plannedId)) with
  | none => (.error .notFound, db)
  | some pp =>
    if pp.status = .planned then
      (.ok (), { db with planned_payments :=
                   db.planned_payments.map fun p =>
                     if p.id = plannedId then { p with status := .canceled } else p })
    else (.error (.invalidState pp.status), db)

/-! ## The unguarded double-execution schedule

The execute handler runs its status check as a plain `SELECT` and its
status transition as a separate unconditional `UPDATE`, with the
transaction `INSERT` in between and no store transaction around any of
them. `doubleExecuteRace` is the interleaving of two concurrent execute
calls A and B in which both read phases (all the `SELECT`s) complete
before either caller's first write — a schedule the request-parallel
model permits, since every `db.query` is atomic but nothing orders the
five statements of one call against the other call's. -/
def doubleExecuteRace (db : DB) (plannedId : Nat) (inA inB : ExecInput) :
    (Except ExecErr Nat × Except ExecErr Nat) × DB :=
  match execChecks db plannedId inA with
  | .error e =>
    match executePlanned db plannedId inB with
    | (rB, db') => ((.error e, rB), db')
  | .ok planA =>
    match execChecks db plannedId inB with
    | .error e =>
      let (tidA, db') := execWrites db plannedId planA inA
      ((.ok tidA, .error e), db')
    | .ok planB =>
      let (tidA, db1) := execWrites db plannedId planA inA
      let (tidB, db2) := execWrites db1 plannedId planB inB
      ((.ok tidA, .ok tidB), db2)

/-! ## Direct transaction creation (`POST /api/transactions`) -/

/-- `validateAmountSign` from `transactions.ts`: income/adjustment must be
strictly positive, expense/transfer strictly negative. -/
def validateAmountSign (ty : TxnType) (amount_cents : Int) : Bool :=
  if ty = .income ∨ ty = .adjustment then
    decide (amount_cents > 0)
  else if ty = .expense ∨ ty = .transfer then
    decide (amount_cents < 0)
  else
    false

/-- The validated body of a create-transaction request
(`createTransactionSchema`). -/
structure TxnInput where
  user_id : Nat
  pay_period_id : Option Nat
  account_id : Nat
  category_id : Option Nat
  type : TxnType
  amount_cents : Int
  description : Option String
  txn_date : Nat
  planned_payment_id : Option Nat
  counterparty_user_id : Option Nat
deriving DecidableEq

/-- Error outcomes of the create-transaction handler, one per early return. -/
inductive TxnErr where
  | invalidSign
  | userNotFound
  | accountNotFound
  | categoryNotFound
  | payPeriodNotFound
deriving DecidableEq

/-- The create-transaction handler, in source order: the amount-sign guard,
`SELECT id FROM users WHERE id = ?`,
`SELECT id FROM accounts WHERE id = ? AND user_id = ?`,
the optional `SELECT id FROM categories WHERE id = ?` (existence only —
no owner condition in the query),
the optional `SELECT id FROM pay_periods WHERE id = ? AND user_id = ?`,
then the `INSERT INTO transactions`. A `description` of `""` is stored
as `NULL` through `validatedData.description || null`. -/
def createTransaction (db : DB) (inp : TxnInput) : Except TxnErr Nat × DB :=
  if validateAmountSign inp.type inp.amount_cents = false then
    (.error .invalidSign, db)
  else if db.users.any (fun u => decide (u = inp.user_id)) = false then
    (.error .userNotFound, db)
  else if db.accounts.any
      (fun a => decide (a.id = inp.account_id ∧ a.user_id = inp.user_id)) = false then
    (.error .accountNotFound, db)
  else if (match inp.category_id with
           | some c => !(db.categories.any (fun cat => decide (cat.id = c)))
           | none => false : Bool) then
    (.error .categoryNotFound, db)
  else if (match inp.pay_period_id with
           | some p => !(db.pay_periods.any
               (fun pp => decide (pp.id = p ∧ pp.user_id = inp.user_id)))
           | none => false : Bool) then
    (.error .payPeriodNotFound, db)
  else
    let t : Txn :=
      { id := db.nextTxnId
        user_id := inp.user_id
        pay_period_id := inp.pay_period_id
        account_id := inp.account_id
        category_id := inp.category_id
        type := inp.type
        amount_cents := inp.amount_cents
        description := match inp.description with
                       | some d => if d = "" then none else some d
                       | none => none
        txn_date := inp.txn_date
        planned_payment_id := inp.planned_payment_id
        counterparty_user_id := inp.counterparty_user_id }
    (.ok db.nextTxnId,
     { db with transactions := db.transactions ++ [t],
               nextTxnId := db.nextTxnId + 1 })

/-! ## Pay period summary (`GET /api/summary/pay-period/:id`) -/

/-- The summary payload returned by the handler (cent fields). -/
structure PeriodSummary where
  income_in : Int
  expenses_out : Int
  savings_out : Int
  reserved_planned : Int
  leftover : Int
deriving DecidableEq

/-- Error outcome of the summary handler. -/
inductive SummaryErr where
  | notFound
deriving DecidableEq

/-- The pay-period summary handler from `summary.ts`: resolve the pay
period (404 when absent), then the four aggregate `SELECT`s —
income/adjustment amounts `> 0` for the period, absolute
expense/transfer amounts `< 0` for the period, the signed sum of the
period's saving entries, and the owner's `planned` planned payments
with `due_date` in `[pay_date, pay_date + 14)` — and the leftover
difference. `COALESCE(SUM(..), 0)` is `List.sum` over a filtered list. -/
def periodSummary (db : DB) (ppId : Nat) : Except SummaryErr PeriodSummary :=
  match db.pay_periods.find? (fun p => decide (p.id = ppId)) with
  | none => .error .notFound
  | some pp =>
    let income_in :=
      ((db.transactions.filter fun t =>
          decide (t.pay_period_id = some ppId ∧
                  (t.type = .income ∨ t.type = .adjustment) ∧
                  t.amount_cents > 0)).map (fun t => t.amount_cents)).sum
    let expenses_out :=
      ((db.transactions.filter fun t =>
          decide (t.pay_period_id = some ppId ∧
                  (t.type = .expense ∨ t.type = .transfer) ∧
                  t.amount_cents < 0)).map (fun t => |t.amount_cents|)).sum
    let savings_out :=
      ((db.saving_entries.filter fun e =>
          decide (e.pay_period_id = some ppId)).map (fun e => e.amount_cents)).sum
    let reserved_planned :=
      ((db.planned_payments.filter fun p =>
          decide (p.user_id = pp.user_id ∧ p.status = .planned ∧
                  pp.pay_date ≤ p.due_date ∧ p.due_date < pp.pay_date + 14)).map
        (fun p => p.amount_cents)).sum
    .ok { income_in := income_in
          expenses_out := expenses_out
          savings_out := savings_out
          reserved_planned := reserved_planned
          leftover := income_in - expenses_out - savings_out - reserved_planned }

/-! ## Linking a saving entry to a goal
(`POST /api/savings/entries/:entryId/assign-goal/:goalId`) -/

/-- Error outcomes of the assign-goal handler: entry missing (404), goal
missing or owned by another user (404), link already present (409). -/
inductive LinkErr where
  | entryNotFound
  | goalNotFound
  | conflict
deriving DecidableEq

/-- The assign-goal handler from `goals.ts`:
`SELECT id, user_id FROM saving_entries WHERE id = ?` (404 when empty),
`SELECT id FROM saving_goals WHERE id = ? AND user_id = ?` with the
entry's owner (404 when empty),
`SELECT .. FROM saving_entry_goals WHERE saving_entry_id = ? AND goal_id = ?`
(409 when nonempty), then the link `INSERT`. -/
def assignGoal (db : DB) (entryId goalId : Nat) : Except LinkErr Unit × DB :=
  match db.saving_entries.find? (fun e => decide (e.id = entryId)) with
  | none => (.error .entryNotFound, db)
  | some entry =>
    if db.saving_goals.any
        (fun g => decide (g.id = goalId ∧ g.user_id = entry.user_id)) = false then
      (.error .goalNotFound, db)
    else if db.saving_entry_goals.any
        (fun l => decide (l = (entryId, goalId))) then
      (.error .conflict, db)
    else
      (.ok (), { db with saving_entry_goals :=
                   db.saving_entry_goals ++ [(entryId, goalId)] })

/-! ## Reconciliation import (`POST /api/import`)

`processImport` in `export.ts` receives a table name, the record list
and an insert query with an optional update query, and loops over the
records: in dry-run mode it only counts; otherwise it attempts the
insert, and on failure applies the update when the failure is
`ER_DUP_ENTRY` and an update query exists, counting updated, else
counting skipped. An exception thrown by the update itself is not
caught: it propagates out of the loop to the route's catch block.

The embedding is parametric in the store state `σ` and the record type
`ρ` of the table being processed, and in the meaning of the two queries
(`insertOp`, `updateOp?`), each an atomic fallible state transformer —
exactly the shape `await db.query(insertQuery, values)` has. The error
constructor distinguishes `ER_DUP_ENTRY` from every other failure, the
only distinction the source makes. An uncaught error is returned
together with the state already committed at that point (MySQL
statements autocommit; nothing rolls them back). -/

/-- A `db.query` failure as the import loop distinguishes it:
`ER_DUP_ENTRY` or anything else. -/
inductive DBErr where
  | dupKey
  | otherErr
deriving DecidableEq

/-- The per-table `{inserted, updated, skipped}` counters. -/
structure ImportCounts where
  inserted : Nat
  updated : Nat
  skipped : Nat
deriving DecidableEq

/-- The record loop of `processImport`, threading the counters and the
store state. Uncaught update failures abort with the state reached so far. -/
def processImport (dryRun : Bool) (insertOp : σ → ρ → Except DBErr σ)
    (updateOp : Option (σ → ρ → Except DBErr σ)) :
    List ρ → ImportCounts → σ → Except (DBErr × σ) (ImportCounts × σ)
  | [], c, st => .ok (c, st)
  | r :: rs, c, st =>
    if dryRun then
      processImport dryRun insertOp updateOp rs
        { c with inserted := c.inserted + 1 } st
    else
      match insertOp st r with
      | .ok st' =>
        processImport dryRun insertOp updateOp rs
          { c with inserted := c.inserted + 1 } st'
      | .error e =>
        match e, updateOp with
        | .dupKey, some u =>
          match u st r with
          | .ok st' =>
            processImport dryRun insertOp updateOp rs
              { c with updated := c.updated + 1 } st'
          | .error e' => .error (e', st)
        | _, _ =>
          processImport dryRun insertOp updateOp rs
            { c with skipped := c.skipped + 1 } st

/-- The meaning of a table's `INSERT` statement keyed by the record's own
primary key: it fails with `ER_DUP_ENTRY` exactly when a row with that
key is already present, and otherwise appends the row. Each table
block of the import route (accounts, categories, pay periods,
transactions, planned payments, saving entries, saving goals,
entry-goal links) instantiates
this at its row type with its primary key. -/
def kinsert (key : ρ → κ) [DecidableEq κ] (st : List ρ) (r : ρ) :
    Except DBErr (List ρ) :=
  if st.any (fun x => decide (key x = key r)) then .error .dupKey
  else .ok (st ++ [r])

/-- The nominal meaning of a table's `UPDATE .. WHERE <key> = ?`
statement: rewrite the rows whose key matches the record's key (zero or
more of them), leaving the table's key column and row count untouched.
It never inserts a row and never fails. (The source binds the record's
values to the update placeholders positionally; whichever row contents
that produces, an `UPDATE` statement can only ever rewrite non-key
fields of matching rows, which is all the theorems below rely on.) -/
def ktouch (key : ρ → κ) [DecidableEq κ] (st : List ρ) (r : ρ) :
    Except DBErr (List ρ) :=
  .ok (st.map fun x => if key x = key r then r else x)

/-- The transactions import block's `INSERT`: `kinsert` at the
transactions table keyed by `id`, with no update query and — unlike the
direct creation path — no call to `validateAmountSign` anywhere. -/
def txnImportInsert (st : List Txn) (t : Txn) : Except DBErr (List Txn) :=
  kinsert Txn.id st t

/-! ## Concrete stores used by the closed theorems and witnesses -/

/-- An account owned by user 7. -/
def exAccount : Account :=
  { id := 3, user_id := 7, name := "checking", type := .bank,
    currency := "USD", is_active := true }

/-- A planned payment of user 7 in state `planned`, magnitude 30000,
due on day 9, with a stored account. -/
def exPlanned : PlannedPayment :=
  { id := 1, user_id := 7, account_id := some 3, description := "rent",
    amount_cents := 30000, due_date := 9, auto_debit := false,
    status := .planned, linked_txn_id := none }

/-- A store holding user 7, `exAccount` and `exPlanned`, with the
transactions auto-increment counter at 2. -/
def exDB : DB :=
  { users := [7], accounts := [exAccount], categories := [],
    pay_periods := [], transactions := [], planned_payments := [exPlanned],
    saving_entries := [], saving_goals := [], saving_entry_goals := [],
    nextTxnId := 2 }

/-- An execute request carrying only the mandatory transaction date. -/
def exInput : ExecInput :=
  { txn_date := 50, account_id := none, category_id := none, description := none }

/-- `exDB` with the planned payment already `executed`. -/
def exDBExecuted : DB :=
  { exDB with planned_payments := [{ exPlanned with status := .executed }] }

/-! ## Claim theorems -/

/-- C1: the claim states that two concurrent execute calls on a `planned`
payment yield exactly one `executed` transition and exactly one created
transaction, with the loser receiving `InvalidState`. The code has no
conditional write and no transaction scope: in the legal schedule where
both calls finish their `SELECT`s before either writes, both callers
pass the status guard, both insert a transaction referencing the same
planned payment, and both report success — no caller observes
`InvalidState`. This evaluates that schedule on `exDB`. -/
theorem doubleExecuteRace_creates_two_transactions :
    (doubleExecuteRace exDB 1 exInput exInput).1 = (.ok 2, .ok 3) ∧
    (doubleExecuteRace exDB 1 exInput exInput).2.transactions.length = 2 ∧
    ((doubleExecuteRace exDB 1 exInput exInput).2.transactions.filter
        (fun t => decide (t.planned_payment_id = some 1))).length = 2 :=
  ⟨rfl, rfl, rfl⟩

/-- C5: executing a planned payment that is found, is in state `planned`,
resolves an account owned by the payment's owner, and whose category
override (when present) exists, appends exactly one transaction — type
`expense`, amount `−|amount_cents|`, the given execution date,
`planned_payment_id` pointing back at the payment — bumps the
auto-increment counter, marks the payment `executed` with
`linked_txn_id` set to the new transaction's id, and returns that id. -/
theorem executePlanned_success_effect
    (db : DB) (pid : Nat) (inp : ExecInput) (pp : PlannedPayment) (aid : Nat)
    (hfind : db.planned_payments.find? (fun p => decide (p.id = pid)) = some pp)
    (hst : pp.status = .planned)
    (hacct : (match inp.account_id with
              | some a => some a
              | none => pp.account_id) = some aid)
    (hown : db.accounts.any
      (fun a => decide (a.id = aid ∧ a.user_id = pp.user_id)) = true)
    (hcat : ∀ c, inp.category_id = some c →
      db.categories.any (fun cat => decide (cat.id = c)) = true) :
    ∃ t : Txn,
      executePlanned db pid inp =
        (.ok t.id,
         { db with
           transactions := db.transactions ++ [t],
           nextTxnId := db.nextTxnId + 1,
           planned_payments := db.planned_payments.map fun p =>
             if p.id = pid then
               { p with status := .executed, linked_txn_id := some t.id }
             else p }) ∧
      t.id = db.nextTxnId ∧ t.type = .expense ∧
      t.amount_cents = -|pp.amount_cents| ∧
      t.txn_date = inp.txn_date ∧ t.planned_payment_id = some pid := by
  refine ⟨{ id := db.nextTxnId, user_id := pp.user_id, pay_period_id := none,
            account_id := aid, category_id := inp.category_id, type := .expense,
            amount_cents := -((pp.amount_cents.natAbs : Int)),
            description := some (match inp.description with
                                 | some d => if d = "" then pp.description else d
                                 | none => pp.description),
            txn_date := inp.txn_date, planned_payment_id := some pid,
            counterparty_user_id := none }, ?_, rfl, rfl, ?_, rfl, rfl⟩
  · unfold executePlanned execChecks execWrites
    rw [hfind]
    simp only [hst, if_true]
    rw [hacct]
    simp only [hown, if_true]
    cases hcase : inp.category_id with
    | none => rfl
    | some c => simp only [hcat c hcase, if_true]
  · rw [Int.abs_eq_natAbs]

/-- C5 witness: the success effect evaluated on the concrete store
`exDB`: the new transaction gets id 2, amount −30000, date 50. -/
theorem executePlanned_success_effect_example :
    ∃ t : Txn,
      executePlanned exDB 1 exInput =
        (.ok t.id,
         { exDB with
           transactions := exDB.transactions ++ [t],
           nextTxnId := exDB.nextTxnId + 1,
           planned_payments := exDB.planned_payments.map fun p =>
             if p.id = 1 then
               { p with status := .executed, linked_txn_id := some t.id }
             else p }) ∧
      t.id = exDB.nextTxnId ∧ t.type = .expense ∧
      t.amount_cents = -|exPlanned.amount_cents| ∧
      t.txn_date = exInput.txn_date ∧ t.planned_payment_id = some 1 :=
  executePlanned_success_effect exDB 1 exInput exPlanned 3
    (by decide) (by decide) (by decide) (by decide)
    (fun c h => by cases h)

/-- C8: on a planned payment whose status is not `planned`, both execute
and cancel fail with `InvalidState` and leave the store untouched; a
successful cancel rewrites only the payment's status to `canceled`,
leaving every other field and every other table as they were. -/
theorem plannedPayment_terminal_guard
    (db : DB) (pid : Nat) (inp : ExecInput) (pp : PlannedPayment)
    (hfind : db.planned_payments.find? (fun p => decide (p.id = pid)) = some pp) :
    (pp.status ≠ .planned →
       executePlanned db pid inp = (.error (.invalidState pp.status), db) ∧
       cancelPlanned db pid = (.error (.invalidState pp.status), db)) ∧
    (pp.status = .planned →
       cancelPlanned db pid =
         (.ok (),
          { db with planned_payments := db.planned_payments.map fun p =>
              if p.id = pid then { p with status := .canceled } else p })) := by
  constructor
  · intro hne
    constructor
    · unfold executePlanned execChecks
      rw [hfind]
      simp [hne]
    · unfold cancelPlanned
      rw [hfind]
      simp [hne]
  · intro heq
    unfold cancelPlanned
    rw [hfind]
    simp [heq]

/-- C8 witness: on `exDBExecuted` (the payment already `executed`) both
operations fail with `InvalidState 'executed'` and the store is
returned unchanged; on `exDB` (still `planned`) cancel succeeds and
rewrites only that status field. -/
theorem plannedPayment_terminal_guard_example :
    (executePlanned exDBExecuted 1 exInput =
        (.error (.invalidState .executed), exDBExecuted) ∧
     cancelPlanned exDBExecuted 1 =
        (.error (.invalidState .executed), exDBExecuted)) ∧
    cancelPlanned exDB 1 =
      (.ok (),
       { exDB with planned_payments := exDB.planned_payments.map fun p =>
           if p.id = 1 then { p with status := .canceled } else p }) :=
  ⟨(plannedPayment_terminal_guard exDBExecuted 1 exInput
      { exPlanned with status := .executed } (by decide)).1 (by decide),
   (plannedPayment_terminal_guard exDB 1 exInput exPlanned (by decide)).2 rfl⟩

/-- A store with every table empty and the transaction counter at 1. -/
def emptyDB : DB :=
  { users := [], accounts := [], categories := [], pay_periods := [],
    transactions := [], planned_payments := [], saving_entries := [],
    saving_goals := [], saving_entry_goals := [], nextTxnId := 1 }

/-- C7: for an existing pay period, the summary returns `income_in` =
the sum of the period's income/adjustment amounts `> 0`, `expenses_out`
= the sum of absolute expense/transfer amounts `< 0`, `savings_out` =
the signed sum of the period's saving entries, `reserved_planned` = the
sum of the owner's `planned` payment magnitudes due in
`[pay_date, pay_date + 14)`, and `leftover` = `income_in − expenses_out
− savings_out − reserved_planned`; every sum is zero over an empty set
(third conjunct), and a missing pay period yields `NotFound`. -/
theorem periodSummary_contract (db : DB) (ppId : Nat) :
    (∀ pp, db.pay_periods.find? (fun p => decide (p.id = ppId)) = some pp →
       periodSummary db ppId = .ok
         { income_in := ((db.transactions.filter fun t =>
               decide (t.pay_period_id = some ppId ∧
                       (t.type = .income ∨ t.type = .adjustment) ∧
                       t.amount_cents > 0)).map (fun t => t.amount_cents)).sum
           expenses_out := ((db.transactions.filter fun t =>
               decide (t.pay_period_id = some ppId ∧
                       (t.type = .expense ∨ t.type = .transfer) ∧
                       t.amount_cents < 0)).map (fun t => |t.amount_cents|)).sum
           savings_out := ((db.saving_entries.filter fun e =>
               decide (e.pay_period_id = some ppId)).map
                 (fun e => e.amount_cents)).sum
           reserved_planned := ((db.planned_payments.filter fun p =>
               decide (p.user_id = pp.user_id ∧ p.status = .planned ∧
                       pp.pay_date ≤ p.due_date ∧
                       p.due_date < pp.pay_date + 14)).map
                 (fun p => p.amount_cents)).sum
           leftover :=
             ((db.transactions.filter fun t =>
               decide (t.pay_period_id = some ppId ∧
                       (t.type = .income ∨ t.type = .adjustment) ∧
                       t.amount_cents > 0)).map (fun t => t.amount_cents)).sum
             - ((db.transactions.filter fun t =>
               decide (t.pay_period_id = some ppId ∧
                       (t.type = .expense ∨ t.type = .transfer) ∧
                       t.amount_cents < 0)).map (fun t => |t.amount_cents|)).sum
             - ((db.saving_entries.filter fun e =>
               decide (e.pay_period_id = some ppId)).map
                 (fun e => e.amount_cents)).sum
             - ((db.planned_payments.filter fun p =>
               decide (p.user_id = pp.user_id ∧ p.status = .planned ∧
                       pp.pay_date ≤ p.due_date ∧
                       p.due_date < pp.pay_date + 14)).map
                 (fun p => p.amount_cents)).sum }) ∧
    (db.pay_periods.find? (fun p => decide (p.id = ppId)) = none →
       periodSummary db ppId = .error .notFound) ∧
    (∀ pp, db.pay_periods.find? (fun p => decide (p.id = ppId)) = some pp →
       db.transactions = [] → db.saving_entries = [] →
       db.planned_payments = [] →
       periodSummary db ppId = .ok ⟨0, 0, 0, 0, 0⟩) := by
  refine ⟨?_, ?_, ?_⟩
  · intro pp hfind
    unfold periodSummary
    rw [hfind]
  · intro hnone
    unfold periodSummary
    rw [hnone]
  · intro pp hfind h1 h2 h3
    unfold periodSummary
    rw [hfind, h1, h2, h3]
    rfl

/-- The pay period of the worked example in the design document:
pay date day 0, owner 7. -/
def exPayPeriod : PayPeriod :=
  { id := 1, user_id := 7, pay_date := 0, gross_income_cents := 0 }

/-- An income transaction of +500000 in pay period 1. -/
def exTxnIncome : Txn :=
  { id := 1, user_id := 7, pay_period_id := some 1, account_id := 3,
    category_id := none, type := .income, amount_cents := 500000,
    description := none, txn_date := 1, planned_payment_id := none,
    counterparty_user_id := none }

/-- An expense transaction of −120000 in pay period 1. -/
def exTxnExpense : Txn :=
  { exTxnIncome with id := 2, type := .expense, amount_cents := -120000 }

/-- A saving entry of +50000 in pay period 1. -/
def exSavingEntry : SavingEntry :=
  { id := 1, user_id := 7, pay_period_id := some 1, account_id := 3,
    amount_cents := 50000, entry_date := 3 }

/-- A store holding the worked example: the pay period, the two
transactions, the saving entry and the planned payment
(`exPlanned`: magnitude 30000, due day 9, in the 14-day window). -/
def exSummaryDB : DB :=
  { exDB with pay_periods := [exPayPeriod],
              transactions := [exTxnIncome, exTxnExpense],
              saving_entries := [exSavingEntry] }

/-- C7 witness: on the worked example the summary is
`income_in = 500000, expenses_out = 120000, savings_out = 50000,
reserved_planned = 30000, leftover = 300000`. -/
theorem periodSummary_contract_example :
    periodSummary exSummaryDB 1 = .ok ⟨500000, 120000, 50000, 30000, 300000⟩ := by
  rw [(periodSummary_contract exSummaryDB 1).1 exPayPeriod (by decide)]
  rfl

/-- C10: linking a saving entry to a goal (given the entry exists) fails
with `NotFound` when no goal with that id belongs to the entry's owner,
fails with `Conflict` when the (entry, goal) link row already exists,
both failures leaving the store untouched; a successful link appends
exactly the one (entry, goal) row to `saving_entry_goals` and changes
nothing else. -/
theorem assignGoal_contract
    (db : DB) (entryId goalId : Nat) (entry : SavingEntry)
    (hfind : db.saving_entries.find? (fun e => decide (e.id = entryId)) = some entry) :
    (db.saving_goals.any
        (fun g => decide (g.id = goalId ∧ g.user_id = entry.user_id)) = false →
       assignGoal db entryId goalId = (.error .goalNotFound, db)) ∧
    (db.saving_goals.any
        (fun g => decide (g.id = goalId ∧ g.user_id = entry.user_id)) = true →
     db.saving_entry_goals.any (fun l => decide (l = (entryId, goalId))) = true →
       assignGoal db entryId goalId = (.error .conflict, db)) ∧
    (db.saving_goals.any
        (fun g => decide (g.id = goalId ∧ g.user_id = entry.user_id)) = true →
     db.saving_entry_goals.any (fun l => decide (l = (entryId, goalId))) = false →
       assignGoal db entryId goalId =
         (.ok (), { db with saving_entry_goals :=
                      db.saving_entry_goals ++ [(entryId, goalId)] })) := by
  refine ⟨?_, ?_, ?_⟩
  · intro hgoal
    unfold assignGoal
    rw [hfind]
    dsimp only
    rw [hgoal]
    rfl
  · intro hgoal hlink
    unfold assignGoal
    rw [hfind]
    dsimp only
    rw [hgoal, hlink]
    rfl
  · intro hgoal hlink
    unfold assignGoal
    rw [hfind]
    dsimp only
    rw [hgoal, hlink]
    rfl

/-- A saving entry of user 1 used by the goal-linking examples. -/
def exEntry : SavingEntry :=
  { id := 4, user_id := 1, pay_period_id := none, account_id := 3,
    amount_cents := 20000, entry_date := 5 }

/-- A saving goal with id 9 owned by user 2 — not the owner of `exEntry`. -/
def exGoalOther : SavingGoal :=
  { id := 9, user_id := 2, name := "car", target_amount_cents := 100000,
    target_date := 200 }

/-- A saving goal with id 9 owned by user 1 — the owner of `exEntry`. -/
def exGoalOwn : SavingGoal :=
  { exGoalOther with user_id := 1 }

/-- Store: `exEntry` plus the foreign-owned goal. -/
def exLinkDBOther : DB :=
  { emptyDB with saving_entries := [exEntry], saving_goals := [exGoalOther] }

/-- Store: `exEntry` plus the same-owner goal, no link yet. -/
def exLinkDBOwn : DB :=
  { emptyDB with saving_entries := [exEntry], saving_goals := [exGoalOwn] }

/-- Store: `exLinkDBOwn` with the (4, 9) link already present. -/
def exLinkDBLinked : DB :=
  { exLinkDBOwn with saving_entry_goals := [(4, 9)] }

/-- C10 witness: a goal owned by another user yields `NotFound` with the
store unchanged; an existing link yields `Conflict` with the store
unchanged; otherwise the single link row is appended. -/
theorem assignGoal_contract_example :
    assignGoal exLinkDBOther 4 9 = (.error .goalNotFound, exLinkDBOther) ∧
    assignGoal exLinkDBLinked 4 9 = (.error .conflict, exLinkDBLinked) ∧
    assignGoal exLinkDBOwn 4 9 =
      (.ok (), { exLinkDBOwn with saving_entry_goals :=
                   exLinkDBOwn.saving_entry_goals ++ [(4, 9)] }) :=
  ⟨(assignGoal_contract exLinkDBOther 4 9 exEntry (by decide)).1 (by decide),
   (assignGoal_contract exLinkDBLinked 4 9 exEntry (by decide)).2.1
     (by decide) (by decide),
   (assignGoal_contract exLinkDBOwn 4 9 exEntry (by decide)).2.2
     (by decide) (by decide)⟩

/-- An account of user 1, used by the category-ownership examples. -/
def exCashAccount : Account :=
  { id := 1, user_id := 1, name := "wallet", type := .cash,
    currency := "USD", is_active := true }

/-- A personal category owned by user 2 — neither global nor owned by
user 1. -/
def foreignCat : Category :=
  { id := 5, user_id := some 2, name := "other", kind := .expense }

/-- Store: user 1, user 1's account, and user 2's category. -/
def foreignCatDB : DB :=
  { emptyDB with users := [1], accounts := [exCashAccount],
                 categories := [foreignCat] }

/-- A valid income transaction of user 1 referencing category 5. -/
def foreignCatInput : TxnInput :=
  { user_id := 1, pay_period_id := none, account_id := 1,
    category_id := some 5, type := .income, amount_cents := 100,
    description := none, txn_date := 10, planned_payment_id := none,
    counterparty_user_id := none }

/-- C6 counterexample: the claim says a write referencing a category that
is neither global nor owned by the writer is rejected. Here user 1
creates a transaction referencing category 5, which is owned by user 2
(`user_id = some 2`, so not global and not the writer's), and the write
succeeds, persisting the reference. -/
theorem createTransaction_accepts_foreign_category :
    foreignCat.user_id = some 2 ∧ foreignCatInput.user_id = 1 ∧
    (createTransaction foreignCatDB foreignCatInput).1 = .ok 1 ∧
    ((createTransaction foreignCatDB foreignCatInput).2.transactions.map
        (fun t => t.category_id)) = [some 5] :=
  ⟨rfl, rfl, rfl, rfl⟩

/-- C6 amended: both category checks (`SELECT id FROM categories WHERE
id = ?` in the direct-creation and execute handlers) require only that
a category row with the given id exists, regardless of its owner: with
the earlier guards passing, direct creation is rejected with `NotFound`
exactly when no category with that id exists, and otherwise persists
the reference (first conjunct, both directions); the execute handler
likewise rejects a category override only when the id does not exist
(second conjunct). -/
theorem categoryReference_existence_only :
    (∀ (db : DB) (inp : TxnInput) (c : Nat),
       validateAmountSign inp.type inp.amount_cents = true →
       db.users.any (fun u => decide (u = inp.user_id)) = true →
       db.accounts.any
         (fun a => decide (a.id = inp.account_id ∧ a.user_id = inp.user_id)) = true →
       inp.category_id = some c →
       (db.categories.any (fun cat => decide (cat.id = c)) = false →
          createTransaction db inp = (.error .categoryNotFound, db)) ∧
       (db.categories.any (fun cat => decide (cat.id = c)) = true →
        inp.pay_period_id = none →
          ∃ t : Txn, (createTransaction db inp).1 = .ok db.nextTxnId ∧
            (createTransaction db inp).2.transactions = db.transactions ++ [t] ∧
            t.category_id = some c)) ∧
    (∀ (db : DB) (pid : Nat) (inp : ExecInput) (pp : PlannedPayment) (aid c : Nat),
       db.planned_payments.find? (fun p => decide (p.id = pid)) = some pp →
       pp.status = .planned →
       (match inp.account_id with
        | some a => some a
        | none => pp.account_id) = some aid →
       db.accounts.any
         (fun a => decide (a.id = aid ∧ a.user_id = pp.user_id)) = true →
       inp.category_id = some c →
       db.categories.any (fun cat => decide (cat.id = c)) = false →
       executePlanned db pid inp = (.error .categoryNotFound, db)) := by
  constructor
  · intro db inp c h1 h2 h3 hc
    constructor
    · intro hmiss
      unfold createTransaction
      rw [h1, h2, h3, hc]
      dsimp only
      rw [hmiss]
      rfl
    · intro hhit hpp
      unfold createTransaction
      rw [h1, h2, h3, hc, hpp]
      dsimp only
      rw [hhit]
      exact ⟨_, rfl, rfl, rfl⟩
  · intro db pid inp pp aid c hfind hst hacct hown hc hmiss
    unfold executePlanned execChecks
    rw [hfind]
    dsimp only
    rw [hst, hacct]
    dsimp only
    rw [hown, hc]
    dsimp only
    rw [hmiss]
    rfl

/-- `foreignCatDB` without the category row. -/
def noCatDB : DB :=
  { foreignCatDB with categories := [] }

/-- C6 amended witness: with category 5 absent the direct write is
rejected with `NotFound`; with category 5 present but owned by user 2
the write persists the reference; and the execute handler rejects a
category override whose id does not exist. -/
theorem categoryReference_existence_only_example :
    createTransaction noCatDB foreignCatInput =
      (.error .categoryNotFound, noCatDB) ∧
    (∃ t : Txn, (createTransaction foreignCatDB foreignCatInput).1 = .ok 1 ∧
       (createTransaction foreignCatDB foreignCatInput).2.transactions =
         foreignCatDB.transactions ++ [t] ∧
       t.category_id = some 5) ∧
    executePlanned exDB 1 { exInput with category_id := some 99 } =
      (.error .categoryNotFound, exDB) :=
  ⟨(categoryReference_existence_only.1 noCatDB foreignCatInput 5
      rfl rfl rfl rfl).1 rfl,
   (categoryReference_existence_only.1 foreignCatDB foreignCatInput 5
      rfl rfl rfl rfl).2 rfl rfl,
   categoryReference_existence_only.2 exDB 1
     { exInput with category_id := some 99 } exPlanned 3 99
     (by decide) rfl rfl rfl rfl rfl⟩

/-- An imported transaction record violating the sign invariant:
type `income` with a negative amount. -/
def badImportTxn : Txn :=
  { id := 1, user_id := 1, pay_period_id := none, account_id := 1,
    category_id := none, type := .income, amount_cents := -500,
    description := none, txn_date := 10, planned_payment_id := none,
    counterparty_user_id := none }

/-- An imported transaction record with a zero amount. -/
def zeroImportTxn : Txn :=
  { badImportTxn with id := 2, amount_cents := 0 }

/-- C4 counterexample: the claim says every write path rejects
sign-violating and zero amounts before persistence. The transactions
block of the reconciliation import runs its `INSERT` with no sign validation:
an `income` record with amount −500 and a record with amount 0 are both
persisted and counted as inserted. -/
theorem txnImport_accepts_invalid_sign :
    validateAmountSign badImportTxn.type badImportTxn.amount_cents = false ∧
    validateAmountSign zeroImportTxn.type zeroImportTxn.amount_cents = false ∧
    processImport false txnImportInsert none [badImportTxn, zeroImportTxn]
        ⟨0, 0, 0⟩ ([] : List Txn) =
      .ok (⟨2, 0, 0⟩, [badImportTxn, zeroImportTxn]) :=
  ⟨rfl, rfl, rfl⟩

/-- C4 amended: the sign invariant is enforced by the write paths that
validate — every transaction accepted by direct creation satisfies
`amount_cents > 0 ↔ type ∈ {income, adjustment}` and
`amount_cents < 0 ↔ type ∈ {expense, transfer}` with zero rejected
(first conjunct), and planned-payment execution only writes `expense`
rows with non-positive amount `−|magnitude|` (second conjunct) — but
the reconciliation import path persists transaction records without any
sign check (see the counterexample). -/
theorem signInvariant_on_validated_paths :
    (∀ (db : DB) (inp : TxnInput) (tid : Nat) (db' : DB),
       createTransaction db inp = (.ok tid, db') →
       validateAmountSign inp.type inp.amount_cents = true ∧
       ∃ t : Txn, db'.transactions = db.transactions ++ [t] ∧
         t.type = inp.type ∧ t.amount_cents = inp.amount_cents ∧
         t.amount_cents ≠ 0 ∧
         (0 < t.amount_cents ↔ (t.type = .income ∨ t.type = .adjustment)) ∧
         (t.amount_cents < 0 ↔ (t.type = .expense ∨ t.type = .transfer))) ∧
    (∀ (db : DB) (pid : Nat) (inp : ExecInput) (tid : Nat) (db' : DB),
       executePlanned db pid inp = (.ok tid, db') →
       ∃ t : Txn, db'.transactions = db.transactions ++ [t] ∧
         t.type = .expense ∧ t.amount_cents ≤ 0) := by
  constructor
  · intro db inp tid db' h
    unfold createTransaction at h
    split_ifs at h with hsign huser hacct hcat hpp <;>
      simp only [Prod.mk.injEq, reduceCtorEq, false_and] at h
    obtain ⟨htid, hdb⟩ := h
    subst hdb
    have hv : validateAmountSign inp.type inp.amount_cents = true := by
      revert hsign
      cases validateAmountSign inp.type inp.amount_cents <;> simp
    have hzero : inp.amount_cents ≠ 0 := by
      have hv2 := hv
      unfold validateAmountSign at hv2
      cases h4 : inp.type <;> rw [h4] at hv2 <;> simp at hv2 <;> omega
    have hpos : (0 < inp.amount_cents) ↔
        (inp.type = .income ∨ inp.type = .adjustment) := by
      have hv2 := hv
      unfold validateAmountSign at hv2
      cases h4 : inp.type <;> rw [h4] at hv2 <;> simp at hv2 <;> simp <;> omega
    have hneg : (inp.amount_cents < 0) ↔
        (inp.type = .expense ∨ inp.type = .transfer) := by
      have hv2 := hv
      unfold validateAmountSign at hv2
      cases h4 : inp.type <;> rw [h4] at hv2 <;> simp at hv2 <;> simp <;> omega
    exact ⟨hv, _, rfl, rfl, rfl, hzero, hpos, hneg⟩
  · intro db pid inp tid db' h
    unfold executePlanned at h
    cases hc : execChecks db pid inp with
    | error e =>
      rw [hc] at h
      simp only [Prod.mk.injEq, reduceCtorEq, false_and] at h
    | ok plan =>
      rw [hc] at h
      unfold execWrites at h
      dsimp only at h
      simp only [Prod.mk.injEq] at h
      obtain ⟨htid, hdb⟩ := h
      subst hdb
      refine ⟨_, rfl, rfl, ?_⟩
      show -((plan.pp.amount_cents.natAbs : Int)) ≤ 0
      have : (0 : Int) ≤ (plan.pp.amount_cents.natAbs : Int) :=
        Int.natCast_nonneg _
      omega

/-- A valid income transaction input of user 7 against `exDB`. -/
def okTxnInput : TxnInput :=
  { user_id := 7, pay_period_id := none, account_id := 3,
    category_id := none, type := .income, amount_cents := 100,
    description := none, txn_date := 10, planned_payment_id := none,
    counterparty_user_id := none }

/-- C4 amended witness: the amended invariant instantiated on a concrete
accepted direct creation and a concrete successful execution. -/
theorem signInvariant_on_validated_paths_example :
    (validateAmountSign okTxnInput.type okTxnInput.amount_cents = true ∧
     ∃ t : Txn,
       (createTransaction exDB okTxnInput).2.transactions =
         exDB.transactions ++ [t] ∧
       t.type = okTxnInput.type ∧ t.amount_cents = okTxnInput.amount_cents ∧
       t.amount_cents ≠ 0 ∧
       (0 < t.amount_cents ↔ (t.type = .income ∨ t.type = .adjustment)) ∧
       (t.amount_cents < 0 ↔ (t.type = .expense ∨ t.type = .transfer))) ∧
    (∃ t : Txn,
       (executePlanned exDB 1 exInput).2.transactions =
         exDB.transactions ++ [t] ∧
       t.type = .expense ∧ t.amount_cents ≤ 0) :=
  ⟨(signInvariant_on_validated_paths.1 exDB okTxnInput 2
      ((createTransaction exDB okTxnInput).2) rfl).2.elim
      (fun t ht => ⟨(signInvariant_on_validated_paths.1 exDB okTxnInput 2
        ((createTransaction exDB okTxnInput).2) rfl).1, t, ht⟩),
   signInvariant_on_validated_paths.2 exDB 1 exInput 2
     ((executePlanned exDB 1 exInput).2) rfl⟩

/-! ## Lemmas about the reconciliation loop -/

/-- A table scan for a key matching no row yields `false`. -/
theorem any_key_eq_false {ρ κ : Type} [DecidableEq κ] (key : ρ → κ)
    (st : List ρ) (r : ρ) (h : ∀ x ∈ st, key x ≠ key r) :
    (st.any fun x => decide (key x = key r)) = false := by
  induction st with
  | nil => rfl
  | cons x xs ih =>
    simp only [List.any_cons, Bool.or_eq_false_iff]
    exact ⟨decide_eq_false (h x (by simp)),
           ih (fun y hy => h y (by simp [hy]))⟩

/-- A table scan for a key some row carries yields `true`. -/
theorem any_key_eq_true {ρ κ : Type} [DecidableEq κ] (key : ρ → κ)
    (st : List ρ) (r : ρ) (h : key r ∈ st.map key) :
    (st.any fun x => decide (key x = key r)) = true := by
  obtain ⟨x, hx, hk⟩ := List.mem_map.mp h
  exact List.any_eq_true.mpr ⟨x, hx, by simp [hk]⟩

/-- The nominal update `ktouch` always succeeds and preserves the
table's key column. -/
theorem ktouch_keys {ρ κ : Type} [DecidableEq κ] (key : ρ → κ)
    (st : List ρ) (r : ρ) :
    ∃ st', ktouch key st r = .ok st' ∧ st'.map key = st.map key := by
  refine ⟨_, rfl, ?_⟩
  induction st with
  | nil => rfl
  | cons x xs ih =>
    simp only [List.map_cons]
    rw [ih]
    congr 1
    by_cases h : key x = key r
    · simp [h]
    · simp [h]

/-- Running the loop over records whose keys are pairwise distinct and
absent from the table inserts them all, in order, and counts only
inserts — for any update semantics, which is never reached. -/
theorem processImport_inserts_fresh {ρ κ : Type} [DecidableEq κ] (key : ρ → κ)
    (uo : Option (List ρ → ρ → Except DBErr (List ρ)))
    (recs : List ρ) (c : ImportCounts) (st : List ρ) :
    (recs.map key).Nodup →
    (∀ r ∈ recs, ∀ x ∈ st, key x ≠ key r) →
    processImport false (kinsert key) uo recs c st =
      .ok ({ c with inserted := c.inserted + recs.length }, st ++ recs) := by
  induction recs generalizing c st with
  | nil =>
    intro _ _
    simp [processImport]
  | cons r rs ih =>
    intro hnodup hfresh
    have hins : kinsert key st r = .ok (st ++ [r]) := by
      unfold kinsert
      rw [any_key_eq_false key st r (fun x hx => hfresh r (by simp) x hx)]
      rfl
    have hstep : processImport false (kinsert key) uo (r :: rs) c st =
        processImport false (kinsert key) uo rs
          { c with inserted := c.inserted + 1 } (st ++ [r]) := by
      simp only [processImport]
      rw [hins]
      rfl
    rw [List.map_cons, List.nodup_cons] at hnodup
    have hfresh' : ∀ r' ∈ rs, ∀ x ∈ st ++ [r], key x ≠ key r' := by
      intro r' hr' x hx
      rcases List.mem_append.mp hx with hx | hx
      · exact hfresh r' (by simp [hr']) x hx
      · rw [List.mem_singleton.mp hx]
        intro hk
        exact hnodup.1 (hk ▸ List.mem_map_of_mem key hr')
    rw [hstep, ih { c with inserted := c.inserted + 1 } (st ++ [r])
          hnodup.2 hfresh']
    have hlen : c.inserted + 1 + rs.length = c.inserted + (r :: rs).length := by
      simp only [List.length_cons]
      omega
    rw [hlen, List.append_assoc, List.singleton_append]

/-- Running the loop over records whose keys are all already present,
with an update semantics that always succeeds and preserves the key
column, updates them all and counts only updates, preserving the key
column. -/
theorem processImport_updates_present {ρ κ : Type} [DecidableEq κ] (key : ρ → κ)
    (u : List ρ → ρ → Except DBErr (List ρ))
    (hu : ∀ st r, ∃ st', u st r = .ok st' ∧ st'.map key = st.map key)
    (recs : List ρ) (c : ImportCounts) (st : List ρ) :
    (∀ r ∈ recs, key r ∈ st.map key) →
    ∃ st2, processImport false (kinsert key) (some u) recs c st =
        .ok ({ c with updated := c.updated + recs.length }, st2) ∧
      st2.map key = st.map key := by
  induction recs generalizing c st with
  | nil =>
    intro _
    exact ⟨st, by simp [processImport], rfl⟩
  | cons r rs ih =>
    intro hpres
    have hdup : kinsert key st r = .error .dupKey := by
      unfold kinsert
      rw [any_key_eq_true key st r (hpres r (by simp))]
      rfl
    obtain ⟨st1, hu1, hkeys1⟩ := hu st r
    have hstep : processImport false (kinsert key) (some u) (r :: rs) c st =
        processImport false (kinsert key) (some u) rs
          { c with updated := c.updated + 1 } st1 := by
      simp only [processImport]
      rw [hdup]
      dsimp only
      rw [hu1]
      rfl
    have hpres' : ∀ r' ∈ rs, key r' ∈ st1.map key := by
      intro r' hr'
      rw [hkeys1]
      exact hpres r' (by simp [hr'])
    obtain ⟨st2, hrun, hkeys2⟩ :=
      ih { c with updated := c.updated + 1 } st1 hpres'
    refine ⟨st2, ?_, by rw [hkeys2, hkeys1]⟩
    rw [hstep, hrun]
    have hlen : c.updated + 1 + rs.length = c.updated + (r :: rs).length := by
      simp only [List.length_cons]
      omega
    rw [hlen]

/-- C2: for a keyed table with an update query (the shape of the
accounts, categories, pay-periods, planned-payments and saving-goals
table blocks), applying the import loop twice to a batch of records
none of whose keys is in the table (and with pairwise-distinct keys)
counts `{inserted := N, updated := 0, skipped := 0}` the first time and
`{inserted := 0, updated := N, skipped := 0}` the second, and never
duplicates a row: the key column after both runs is the old keys
followed by the batch keys, still without duplicates. The update
semantics is quantified over every state transformer that succeeds and
preserves the key column — what a MySQL `UPDATE .. WHERE key = ?`
statement does. -/
theorem reconcile_reapplication_idempotent {ρ κ : Type} [DecidableEq κ]
    (key : ρ → κ) (u : List ρ → ρ → Except DBErr (List ρ))
    (hu : ∀ st r, ∃ st', u st r = .ok st' ∧ st'.map key = st.map key)
    (recs : List ρ) (st : List ρ)
    (hnodup : (recs.map key).Nodup)
    (hfresh : ∀ r ∈ recs, ∀ x ∈ st, key x ≠ key r) :
    processImport false (kinsert key) (some u) recs ⟨0, 0, 0⟩ st =
        .ok (⟨recs.length, 0, 0⟩, st ++ recs) ∧
    ∃ st2,
      processImport false (kinsert key) (some u) recs ⟨0, 0, 0⟩ (st ++ recs) =
          .ok (⟨0, recs.length, 0⟩, st2) ∧
      st2.map key = st.map key ++ recs.map key ∧
      ((st.map key).Nodup → (st2.map key).Nodup) := by
  constructor
  · have h := processImport_inserts_fresh key (some u) recs ⟨0, 0, 0⟩ st
      hnodup hfresh
    simpa using h
  · have hpres : ∀ r ∈ recs, key r ∈ (st ++ recs).map key := by
      intro r hr
      rw [List.map_append]
      exact List.mem_append.mpr (Or.inr (List.mem_map_of_mem key hr))
    obtain ⟨st2, hrun, hkeys⟩ :=
      processImport_updates_present key u hu recs ⟨0, 0, 0⟩ (st ++ recs) hpres
    refine ⟨st2, by simpa using hrun, ?_, ?_⟩
    · rw [hkeys, List.map_append]
    · intro hstnodup
      rw [hkeys, List.map_append]
      refine List.Nodup.append hstnodup hnodup ?_
      intro a ha hb
      obtain ⟨x, hx, hkx⟩ := List.mem_map.mp ha
      obtain ⟨r, hr, hkr⟩ := List.mem_map.mp hb
      exact hfresh r hr x hx (hkx.trans hkr.symm)

/-- A second account of user 7, key-distinct from `exAccount`. -/
def exAccountB : Account :=
  { exAccount with id := 4, name := "savings", type := .savings }

/-- C2 witness: the two-account batch applied twice to an empty accounts
table through the loop with the nominal keyed insert and update:
`{2, 0, 0}` then `{0, 2, 0}`, and the key column stays duplicate-free. -/
theorem reconcile_reapplication_idempotent_example :
    processImport false (kinsert Account.id) (some (ktouch Account.id))
        [exAccount, exAccountB] ⟨0, 0, 0⟩ [] =
      .ok (⟨[exAccount, exAccountB].length, 0, 0⟩, [] ++ [exAccount, exAccountB]) ∧
    ∃ st2,
      processImport false (kinsert Account.id) (some (ktouch Account.id))
          [exAccount, exAccountB] ⟨0, 0, 0⟩ ([] ++ [exAccount, exAccountB]) =
        .ok (⟨0, [exAccount, exAccountB].length, 0⟩, st2) ∧
      st2.map Account.id =
        ([] : List Account).map Account.id ++
          [exAccount, exAccountB].map Account.id ∧
      ((([] : List Account).map Account.id).Nodup →
        (st2.map Account.id).Nodup) :=
  reconcile_reapplication_idempotent Account.id (ktouch Account.id)
    (ktouch_keys Account.id) [exAccount, exAccountB] []
    (by decide) (by decide)

/-- C3 counterexample: the claim says no single record's failure ever
prevents processing of subsequent records or aborts the batch. With
table state `[2]` and batch `[1, 2, 3]`, record 2's insert hits a
duplicate key and its update query fails (an update, like any
`db.query`, can reject — e.g. a store failure); the uncaught error
aborts the loop with only `[2, 1]` committed, so record 3 — which on
its own would import fine (second conjunct) — is never processed. -/
theorem processImport_update_failure_aborts :
    processImport false (kinsert (fun n : Nat => n))
        (some (fun _ _ => .error .otherErr)) [1, 2, 3] ⟨0, 0, 0⟩ [2] =
      .error (.otherErr, [2, 1]) ∧
    processImport false (kinsert (fun n : Nat => n))
        (some (fun _ _ => .error .otherErr)) [3] ⟨0, 0, 0⟩ [2, 1] =
      .ok (⟨1, 0, 0⟩, [2, 1, 3]) :=
  ⟨rfl, rfl⟩

/-- C3 amended: an *insert* failure never aborts the batch: for every
insert semantics — failing arbitrarily — as long as any update applied
on a duplicate-key conflict succeeds, the loop processes every record
and the three counters account for all of them (a duplicate-key
conflict with an update query counts as updated; every other failure
counts as skipped). Only a failure of the update itself aborts the
loop, as the counterexample shows. -/
theorem processImport_insert_failures_never_abort {σ ρ : Type}
    (insertOp : σ → ρ → Except DBErr σ)
    (uo : Option (σ → ρ → Except DBErr σ))
    (hu : ∀ u, uo = some u → ∀ st r, ∃ st', u st r = .ok st')
    (recs : List ρ) (c : ImportCounts) (st : σ) :
    ∃ c' st', processImport false insertOp uo recs c st = .ok (c', st') ∧
      c'.inserted + c'.updated + c'.skipped =
        c.inserted + c.updated + c.skipped + recs.length := by
  induction recs generalizing c st with
  | nil => exact ⟨c, st, rfl, by simp⟩
  | cons r rs ih =>
    cases hins : insertOp st r with
    | ok st1 =>
      obtain ⟨c', st', hrun, hsum⟩ := ih { c with inserted := c.inserted + 1 } st1
      refine ⟨c', st', ?_, ?_⟩
      · have hstep : processImport false insertOp uo (r :: rs) c st =
            processImport false insertOp uo rs
              { c with inserted := c.inserted + 1 } st1 := by
          simp only [processImport]
          rw [hins]
          rfl
        rw [hstep]
        exact hrun
      · simp only [List.length_cons]
        simp at hsum
        omega
    | error e =>
      cases e with
      | dupKey =>
        cases uo with
        | none =>
          obtain ⟨c', st', hrun, hsum⟩ :=
            ih { c with skipped := c.skipped + 1 } st
          refine ⟨c', st', ?_, ?_⟩
          · have hstep : processImport false insertOp none (r :: rs) c st =
                processImport false insertOp none rs
                  { c with skipped := c.skipped + 1 } st := by
              simp only [processImport]
              rw [hins]
              rfl
            rw [hstep]
            exact hrun
          · simp only [List.length_cons]
            simp at hsum
            omega
        | some u =>
          obtain ⟨st1, hu1⟩ := hu u rfl st r
          obtain ⟨c', st', hrun, hsum⟩ :=
            ih { c with updated := c.updated + 1 } st1
          refine ⟨c', st', ?_, ?_⟩
          · have hstep : processImport false insertOp (some u) (r :: rs) c st =
                processImport false insertOp (some u) rs
                  { c with updated := c.updated + 1 } st1 := by
              simp only [processImport]
              rw [hins]
              dsimp only
              rw [hu1]
              rfl
            rw [hstep]
            exact hrun
          · simp only [List.length_cons]
            simp at hsum
            omega
      | otherErr =>
        obtain ⟨c', st', hrun, hsum⟩ :=
          ih { c with skipped := c.skipped + 1 } st
        refine ⟨c', st', ?_, ?_⟩
        · have hstep : processImport false insertOp uo (r :: rs) c st =
              processImport false insertOp uo rs
                { c with skipped := c.skipped + 1 } st := by
            simp only [processImport]
            rw [hins]
            cases uo <;> rfl
          rw [hstep]
          exact hrun
        · simp only [List.length_cons]
          simp at hsum
          omega

/-- C3 amended witness: a batch of three where record 2's insert fails
with a non-duplicate store error and no update query exists: the loop
completes and the counters sum to 3. -/
theorem processImport_insert_failures_never_abort_example :
    ∃ (c' : ImportCounts) (st' : List Nat),
      processImport false
        (fun (st : List Nat) (n : Nat) =>
          if n = 2 then .error .otherErr else .ok (st ++ [n]))
        none [1, 2, 3] ⟨0, 0, 0⟩ [] = .ok (c', st') ∧
      c'.inserted + c'.updated + c'.skipped = 0 + 0 + 0 + [1, 2, 3].length :=
  processImport_insert_failures_never_abort
    (fun st n => if n = 2 then .error .otherErr else .ok (st ++ [n]))
    none (fun u h => by cases h) [1, 2, 3] ⟨0, 0, 0⟩ []

/-- C9: the dry-run loop is a pure simulation: for every insert and
update semantics and every table state, no operation is invoked and the
state comes back unchanged, while every supplied record is counted as
inserted — so the reported `{inserted, updated, skipped}` counters sum
to the number of input records for the processed table. -/
theorem processImport_dryRun_pure {σ ρ : Type}
    (insertOp : σ → ρ → Except DBErr σ)
    (updateOp : Option (σ → ρ → Except DBErr σ))
    (recs : List ρ) (c : ImportCounts) (st : σ) :
    processImport true insertOp updateOp recs c st =
      .ok ({ c with inserted := c.inserted + recs.length }, st) := by
  induction recs generalizing c with
  | nil => simp [processImport]
  | cons r rs ih =>
    have hstep : processImport true insertOp updateOp (r :: rs) c st =
        processImport true insertOp updateOp rs
          { c with inserted := c.inserted + 1 } st := rfl
    rw [hstep, ih]
    have hlen : c.inserted + 1 + rs.length = c.inserted + (r :: rs).length := by
      simp only [List.length_cons]
      omega
    rw [hlen]
